import Mathlib

/-!
# Verification of the Summit map editor's core data-processing subsystems

Shallow embedding of the autotiling engine (`src/tile_xml.rs`), the
run-length atlas image decoders (`src/celeste_atlas.rs` and
`src/data/celeste_atlas.rs`), and the atlas registry (`load_atlas`),
together with theorems settling the specification claims about them.

Conventions:
* Rust `HashMap` values are modelled as association lists whose lookup
  returns the first matching key (keys are unique in the source maps);
  `HashMap::insert` is modelled as consing in front.
* `char` is `Char`; the out-of-bounds sentinel `'\0'` is `Char.ofNat 0`.
* Machine integers are `Nat` with explicit `% 2^w` where wrapping matters
  (the `u64` tie-break hash, the `u8` repeat counter).
* File contents are byte lists (`List Nat`, each entry a byte value);
  fallible reads return `Option`/`Except`.
-/

namespace Summit

/-- The out-of-bounds sentinel `'\0'` used by `get_neighborhood`. -/
def sentinel : Char := Char.ofNat 0

/-- `SetRule` from `src/tile_xml.rs`: a mask pattern (or the literal
tokens `"padding"`/`"center"`) plus candidate tile coordinates. -/
structure SetRule where
  mask : String
  tiles : List (Nat × Nat)
  deriving Repr, DecidableEq

/-- `Tileset` from `src/tile_xml.rs`. -/
structure Tileset where
  id : Char
  path : String
  ignores : Option String
  rules : List SetRule
  deriving Repr, DecidableEq

/-- A 3x3 neighborhood of tile characters, indexed row-then-column,
mirroring `[[char; 3]; 3]`. -/
abbrev Neighborhood := Fin 3 → Fin 3 → Char

/-- Model of Rust `str::split('-')` on the mask string: split a character
list at `'-'`, keeping empty segments (so `"a--b"` gives `["a","","b"]`
and `""` gives `[""]`), exactly as `mask.split('-')` does. -/
def splitDash : List Char → List (List Char)
  | [] => [[]]
  | c :: rest =>
    let r := splitDash rest
    if c = '-' then [] :: r
    else
      match r with
      | [] => [[c]]
      | g :: gs => (c :: g) :: gs

/-- `ignores.map_or(true, |ign| !ign.contains(tile))` from `mask_matches`:
`true` when the tile is NOT listed in the ignores string. -/
def notIgnored (ignores : Option String) (tile : Char) : Bool :=
  match ignores with
  | none => true
  | some ign => !(ign.toList.contains tile)

/-- The per-cell check of the explicit-mask branch of `mask_matches`
(the `match m` on lines 345-362): `0` fails on a solid-and-unignored or
out-of-bounds neighbor, `1` fails on a neighbor that is neither
solid-and-unignored nor out of bounds, everything else matches. -/
def cellBool (is_solid : Char → Bool) (ignores : Option String)
    (tile m : Char) : Bool :=
  let oob := tile == sentinel
  if m = '0' then !((is_solid tile && notIgnored ignores tile) || oob)
  else if m = '1' then !(!(is_solid tile && notIgnored ignores tile) && !oob)
  else true

/-- `mask_matches` from `src/tile_xml.rs` (lines 297-366).  The
`"center"` branch requires every cell solid or out-of-bounds; the
`"padding"` branch requires the center and all 8 neighbors solid or
out-of-bounds (the 2-away check lives in `autotile_tile_coord`); any
other mask is parsed as a `-`-delimited 3x3 pattern of
`0`/`1`/`x`/`X` cells (any other mask character falls through the Rust
`match` and matches anything). -/
def mask_matches (n : Neighborhood) (mask : String) (is_solid : Char → Bool)
    (ignores : Option String) : Bool :=
  if mask = "center" then
    (List.finRange 3).all fun row =>
      (List.finRange 3).all fun col =>
        let tile := n row col
        tile == sentinel || is_solid tile
  else if mask = "padding" then
    let center := n 1 1
    if center != sentinel && !is_solid center then
      false
    else
      (List.finRange 3).all fun row =>
        (List.finRange 3).all fun col =>
          (decide (row = 1) && decide (col = 1)) ||
            (let tile := n row col
             tile == sentinel || is_solid tile)
  else
    let maskRows := splitDash mask.toList
    if maskRows.length ≠ 3 then false
    else
      (List.finRange 3).all fun y =>
        let maskChars := maskRows.getD y.val []
        if maskChars.length ≠ 3 then false
        else
          (List.finRange 3).all fun x =>
            cellBool is_solid ignores (n y x) (maskChars.getD x.val ' ')

/-- `get_neighborhood` from `src/tile_xml.rs` (lines 369-391): the 3x3
window centered at `(x, y)`; any cell outside the (ragged) grid is the
sentinel.  Index `r`/`c` corresponds to `dy + 1`/`dx + 1`. -/
def get_neighborhood (solids : List (List Char)) (x y : Nat) : Neighborhood :=
  fun r c =>
    let nx : Int := (x : Int) + (c : Int) - 1
    let ny : Int := (y : Int) + (r : Int) - 1
    if 0 ≤ nx ∧ 0 ≤ ny ∧ ny < (solids.length : Int) then
      let row := solids.getD ny.toNat []
      if nx < (row.length : Int) then row.getD nx.toNat sentinel
      else sentinel
    else sentinel

/-- `has_orthogonal_air` from `src/tile_xml.rs` (lines 394-417): looks
for air exactly 2 tiles away orthogonally.  Note the bounds check uses
the FIRST row's length `w` in addition to the target row's own length. -/
def has_orthogonal_air (solids : List (List Char)) (x y : Nat)
    (is_solid : Char → Bool) : Bool :=
  let offsets : List (Int × Int) := [(-2, 0), (2, 0), (0, -2), (0, 2)]
  let h : Int := solids.length
  let w : Int := if solids.length > 0 then ((solids.headD []).length : Int) else 0
  offsets.any fun off =>
    let nx : Int := (x : Int) + off.1
    let ny : Int := (y : Int) + off.2
    if nx < 0 ∨ ny < 0 ∨ ny ≥ h ∨ nx ≥ w then false
    else
      let row := solids.getD ny.toNat []
      if row.length ≤ nx.toNat then false
      else !is_solid (row.getD nx.toNat sentinel)

/-- The deterministic tie-break index
`((x as u64 * 31 + y as u64 * 17) % len as u64) as usize` from
`autotile_tile_coord`: `u64` arithmetic wraps modulo `2^64`. -/
def selectIdx (x y len : Nat) : Nat :=
  (((x * 31) % 2 ^ 64 + (y * 17) % 2 ^ 64) % 2 ^ 64) % len

/-- Stage 1 of `autotile_tile_coord` (lines 424-433): scan the rules in
order; on the first non-`"padding"`, non-`"center"` rule whose mask
matches and whose tile list is nonempty, return the hash-selected
candidate; otherwise keep scanning. -/
def explicitStage (rules : List SetRule) (n : Neighborhood) (x y : Nat)
    (is_solid : Char → Bool) (ignores : Option String) : Option (Nat × Nat) :=
  match rules with
  | [] => none
  | r :: rest =>
    if r.mask ≠ "padding" ∧ r.mask ≠ "center" then
      if mask_matches n r.mask is_solid ignores then
        if r.tiles.isEmpty then explicitStage rest n x y is_solid ignores
        else some (r.tiles.getD (selectIdx x y r.tiles.length) (0, 0))
      else explicitStage rest n x y is_solid ignores
    else explicitStage rest n x y is_solid ignores

/-- The loop guard of stage 2 (lines 437-438): the rule is a
`"padding"` rule, its mask matches, and 2-away orthogonal air exists. -/
def paddingPred (n : Neighborhood) (solids : List (List Char)) (x y : Nat)
    (is_solid : Char → Bool) (ignores : Option String) (r : SetRule) : Bool :=
  r.mask == "padding" && mask_matches n r.mask is_solid ignores &&
    has_orthogonal_air solids x y is_solid

/-- The loop guard of stage 3 (lines 453-454): the rule is a `"center"`
rule and its mask matches. -/
def centerPred (n : Neighborhood) (is_solid : Char → Bool)
    (ignores : Option String) (r : SetRule) : Bool :=
  r.mask == "center" && mask_matches n r.mask is_solid ignores

/-- Stage 2 of `autotile_tile_coord` (lines 434-449): find the first
`"padding"` rule whose guard (mask match plus 2-away orthogonal air)
holds; if it has candidates, return the hash-selected one. -/
def paddingStage (rules : List SetRule) (ignores : Option String)
    (solids : List (List Char)) (n : Neighborhood) (x y : Nat)
    (is_solid : Char → Bool) : Option (Nat × Nat) :=
  match rules.find? (paddingPred n solids x y is_solid ignores) with
  | some r =>
    if r.tiles.isEmpty then none
    else some (r.tiles.getD (selectIdx x y r.tiles.length) (0, 0))
  | none => none

/-- Stage 3 of `autotile_tile_coord` (lines 450-465): find the first
`"center"` rule whose mask matches; if it has candidates, return the
hash-selected one. -/
def centerStage (rules : List SetRule) (ignores : Option String)
    (n : Neighborhood) (x y : Nat) (is_solid : Char → Bool) :
    Option (Nat × Nat) :=
  match rules.find? (centerPred n is_solid ignores) with
  | some r =>
    if r.tiles.isEmpty then none
    else some (r.tiles.getD (selectIdx x y r.tiles.length) (0, 0))
  | none => none

/-- `autotile_tile_coord` from `src/tile_xml.rs` (lines 420-468).
Returns `none` exactly when the tile id has no registered tileset;
otherwise tries the explicit masks, then `"padding"`, then `"center"`,
then the unconditional `(0, 0)` default. -/
def autotile_tile_coord (tile_id : Char) (solids : List (List Char)) (x y : Nat)
    (tilesets : List (Char × Tileset)) (is_solid : Char → Bool) :
    Option (Nat × Nat) :=
  match List.lookup tile_id tilesets with
  | none => none
  | some tileset =>
    let n := get_neighborhood solids x y
    match explicitStage tileset.rules n x y is_solid tileset.ignores with
    | some c => some c
    | none =>
      match paddingStage tileset.rules tileset.ignores solids n x y is_solid with
      | some c => some c
      | none =>
        match centerStage tileset.rules tileset.ignores n x y is_solid with
        | some c => some c
        | none => some (0, 0)

/-! ## Rule inheritance (`load_tilesets_with_rules`, lines 277-288)

After XML parsing, `rules_by_id` maps each tile id to its own declared
rules; the loop `for (id, copy_id) in &copy_map` appends the (current)
rules of `copy_id` to the entry of `id`.  We model `rules_by_id` as a
total function (absent ids map to `[]`, matching `or_default` /
`unwrap_or_default`) and the `HashMap` iteration as a list of
`(id, copy_id)` pairs in some order. -/

/-- One inheritance pass of `load_tilesets_with_rules`: for each
`(id, copy_id)` pair, `rules_by_id.entry(id).or_default().extend(base)`
where `base` is `copy_id`'s rules at that moment. -/
def applyCopies (rulesById : Char → List SetRule) :
    List (Char × Char) → (Char → List SetRule)
  | [] => rulesById
  | (id, copyId) :: rest =>
    applyCopies
      (fun i => if i = id then rulesById id ++ rulesById copyId else rulesById i)
      rest

/-! ## Run-length atlas image decoders

Two snapshots of `load_data_file` exist in the repository:

* `src/data/celeste_atlas.rs` (lines 232-289): a single flat
  `while total_pixels < width * height` loop.  The `u8` repeat counter
  is decremented with `repeats_left -= 1` immediately after a fresh run
  is loaded, so a repeat byte of `0` underflows: in a release build it
  wraps to `255` (a 256-pixel run); a debug build panics.  We model the
  release (wrapping) semantics.
* `src/celeste_atlas.rs` (lines 201-273): nested `for y / for x` loops
  that RESET the repeat counter at every row start, guard the `rep = 0`
  case (`if rep > 0 { rep - 1 } else { 0 }`), and apply floating-point
  alpha un-premultiplication when `0 < alpha < 255`.  The float
  computation is abstracted by a parameter `unpremul` (the claims only
  exercise `has_alpha = false` streams, which never reach it).

Pixels are `(r, g, b, a)` tuples; the source stores bytes in
blue-green-red order. -/

/-- An RGBA pixel value. -/
abbrev Pixel := Nat × Nat × Nat × Nat

/-- Read one RLE run header from the byte stream, as the flat decoder in
`src/data/celeste_atlas.rs` does: the repeat byte, then (with alpha) an
alpha byte deciding whether three BGR bytes follow, or (without alpha)
three BGR bytes with alpha forced to 255. -/
def readRun (hasAlpha : Bool) (bytes : List Nat) :
    Option (Nat × Pixel × List Nat) :=
  match bytes with
  | [] => none
  | rep :: rest =>
    if hasAlpha then
      match rest with
      | [] => none
      | alpha :: rest2 =>
        if alpha > 0 then
          match rest2 with
          | b :: g :: r :: rest3 => some (rep, (r, g, b, alpha), rest3)
          | _ => none
        else some (rep, (0, 0, 0, 0), rest2)
    else
      match rest with
      | b :: g :: r :: rest3 => some (rep, (r, g, b, 255), rest3)
      | _ => none

/-- The flat decode loop of `src/data/celeste_atlas.rs` (lines 252-283),
with fuel `width * height - total_pixels`.  After a fresh run is read,
the counter becomes `rep - 1` wrapped in `u8` (so `255` when `rep = 0`,
modelling the release-build underflow). -/
def dataDecodeLoop (hasAlpha : Bool) :
    Nat → Nat → Pixel → List Nat → Option (List Pixel)
  | 0, _, _, _ => some []
  | n + 1, repeatsLeft, px, bytes =>
    if repeatsLeft = 0 then
      match readRun hasAlpha bytes with
      | none => none
      | some (rep, px2, bytes2) =>
        (dataDecodeLoop hasAlpha n (if rep = 0 then 255 else rep - 1) px2
          bytes2).map (px2 :: ·)
    else
      (dataDecodeLoop hasAlpha n (repeatsLeft - 1) px bytes).map (px :: ·)

/-- Read a little-endian 32-bit value (the `width`/`height` header
fields, reinterpreted `as u32`). -/
def readI32le (bytes : List Nat) : Option (Nat × List Nat) :=
  match bytes with
  | b0 :: b1 :: b2 :: b3 :: rest =>
    some (b0 + 256 * b1 + 65536 * b2 + 16777216 * b3, rest)
  | _ => none

/-- `load_data_file` from `src/data/celeste_atlas.rs` (lines 232-289):
header (width, height, has_alpha) then the flat RLE pixel loop. -/
def data_load_data_file (bytes : List Nat) :
    Option (Nat × Nat × List Pixel) :=
  match readI32le bytes with
  | none => none
  | some (width, rest) =>
    match readI32le rest with
    | none => none
    | some (height, rest2) =>
      match rest2 with
      | [] => none
      | a :: rest3 =>
        (dataDecodeLoop (a ≠ 0) (width * height) 0 (0, 0, 0, 255) rest3).map
          (fun ps => (width, height, ps))

/-- Read one RLE run header as the row-based decoder in
`src/celeste_atlas.rs` does (lines 227-261): the repeat counter becomes
`rep - 1` clamped at `0` ("Fix: ensure rep is at least 1"), and when
`0 < alpha < 255` the color channels pass through the abstracted
floating-point un-premultiplication `unpremul alpha channel`. -/
def readRowRun (hasAlpha : Bool) (unpremul : Nat → Nat → Nat)
    (bytes : List Nat) : Option (Nat × Pixel × List Nat) :=
  match bytes with
  | [] => none
  | rep :: rest =>
    let repLeft := if rep > 0 then rep - 1 else 0
    if hasAlpha then
      match rest with
      | [] => none
      | alpha :: rest2 =>
        if alpha > 0 then
          match rest2 with
          | b :: g :: r :: rest3 =>
            if alpha < 255 then
              some (repLeft,
                (unpremul alpha r, unpremul alpha g, unpremul alpha b, alpha),
                rest3)
            else some (repLeft, (r, g, b, alpha), rest3)
          | _ => none
        else some (repLeft, (0, 0, 0, 0), rest2)
    else
      match rest with
      | b :: g :: r :: rest3 => some (repLeft, (r, g, b, 255), rest3)
      | _ => none

/-- The inner `for x in 0..width` loop of `src/celeste_atlas.rs`:
decodes one row of pixels, returning the row together with the final
`(repeats_left, current color, remaining bytes)` state. -/
def rowDecodeRow (hasAlpha : Bool) (unpremul : Nat → Nat → Nat) :
    Nat → Nat → Pixel → List Nat →
    Option (List Pixel × Nat × Pixel × List Nat)
  | 0, repeatsLeft, px, bytes => some ([], repeatsLeft, px, bytes)
  | w + 1, repeatsLeft, px, bytes =>
    if repeatsLeft = 0 then
      match readRowRun hasAlpha unpremul bytes with
      | none => none
      | some (repLeft, px2, bytes2) =>
        (rowDecodeRow hasAlpha unpremul w repLeft px2 bytes2).map
          (fun s => (px2 :: s.1, s.2))
    else
      (rowDecodeRow hasAlpha unpremul w (repeatsLeft - 1) px bytes).map
        (fun s => (px :: s.1, s.2))

/-- The outer `for y in 0..height` loop of `src/celeste_atlas.rs`:
`repeats_left` is RESET to `0` at the start of every row ("Reset repeats
at start of each row for safety"), while the current color and the byte
cursor carry over. -/
def rowDecodeRows (hasAlpha : Bool) (unpremul : Nat → Nat → Nat) (w : Nat) :
    Nat → Pixel → List Nat → Option (List Pixel)
  | 0, _, _ => some []
  | h + 1, px, bytes =>
    match rowDecodeRow hasAlpha unpremul w 0 px bytes with
    | none => none
    | some (ps, _, px2, bytes2) =>
      (rowDecodeRows hasAlpha unpremul w h px2 bytes2).map (ps ++ ·)

/-- `load_data_file` from `src/celeste_atlas.rs` (lines 201-273):
header, then the per-row RLE loops. -/
def row_load_data_file (unpremul : Nat → Nat → Nat) (bytes : List Nat) :
    Option (Nat × Nat × List Pixel) :=
  match readI32le bytes with
  | none => none
  | some (width, rest) =>
    match readI32le rest with
    | none => none
    | some (height, rest2) =>
      match rest2 with
      | [] => none
      | a :: rest3 =>
        (rowDecodeRows (a ≠ 0) unpremul width height (0, 0, 0, 255)
          rest3).map (fun ps => (width, height, ps))

/-! ## Atlas registry (`AtlasManager::load_atlas`)

Both snapshots (`src/celeste_atlas.rs` lines 75-101 and
`src/data/celeste_atlas.rs` lines 83-132) follow the same shape: check
that the meta file exists (else return a not-found error), decode the
meta file and all referenced `.data` files into a LOCAL `Atlas` value
(`load_meta_file` takes `&self` and only mutates that local value, so
any `?`-propagated decode error leaves the manager untouched), and only
on success insert the texture-id entries and the atlas itself into the
manager.  The filesystem and the nested meta/data decode are abstracted
into the `metaExists` flag and the `loadMeta` result. -/

/-- The fields of `Atlas` that `load_atlas` registers into the manager:
its texture handles, identified by their ids. -/
structure AtlasE where
  name : String
  textureIds : List Nat
  deriving Repr, DecidableEq

/-- The `io::Error` outcomes relevant to `load_atlas`. -/
inductive IoErrorE where
  | notFound : IoErrorE
  | decodeFailed : String → IoErrorE
  deriving Repr, DecidableEq

/-- `AtlasManager`'s registry state: the atlas map and the
texture-id-to-atlas index. -/
structure AtlasManagerE where
  atlases : List (String × AtlasE)
  textureIdToAtlas : List (Nat × String)
  deriving Repr, DecidableEq

/-- `AtlasManager::load_atlas`: returns the call's outcome together with
the manager state after the call. -/
def load_atlas (metaExists : Bool) (loadMeta : Except IoErrorE AtlasE)
    (mgr : AtlasManagerE) (name : String) :
    Except IoErrorE Unit × AtlasManagerE :=
  if !metaExists then
    (.error .notFound, mgr)
  else
    match loadMeta with
    | .error e => (.error e, mgr)
    | .ok atlas =>
      let mgr1 : AtlasManagerE :=
        { mgr with
          textureIdToAtlas :=
            atlas.textureIds.foldl (fun m tid => (tid, name) :: m)
              mgr.textureIdToAtlas }
      (.ok (), { mgr1 with atlases := (name, atlas) :: mgr1.atlases })

/-! ## Rule-map cache (`TILESET_RULES`, `get_tilesets_with_rules`)

`static TILESET_RULES: OnceCell<HashMap<char, Tileset>>` is a single
process-wide cell, and
`get_tilesets_with_rules(xml_path)` is
`TILESET_RULES.get_or_init(|| load_tilesets_with_rules(xml_path))`.
The cell is modelled as explicit state (`Option` of the cached map) and
the file parse `load_tilesets_with_rules` as a function from the path
to its parse result. -/

/-- `get_tilesets_with_rules`: return the cached map if the cell is
already initialized, otherwise parse the given path and cache the
result. -/
def get_tilesets_with_rules (load : String → List (Char × Tileset))
    (cell : Option (List (Char × Tileset))) (xml_path : String) :
    List (Char × Tileset) × Option (List (Char × Tileset)) :=
  match cell with
  | some m => (m, some m)
  | none => (load xml_path, some (load xml_path))

/-! ## Claim-side (specification) predicates

These state, declaratively, what the spec sentences assert; the theorems
below compare them with the embedded source functions. -/

/-- The spec's notion of a grid cell being in bounds in the ragged grid:
nonnegative coordinates, a row that exists, and a column within that
row's own length. -/
def inRagged (solids : List (List Char)) (nx ny : Int) : Prop :=
  0 ≤ nx ∧ 0 ≤ ny ∧ ny < (solids.length : Int) ∧
    nx < ((solids.getD ny.toNat []).length : Int)

/-- The character stored at a (in-bounds) grid cell. -/
def cellAt (solids : List (List Char)) (nx ny : Int) : Char :=
  (solids.getD ny.toNat []).getD nx.toNat sentinel

/-- Spec clause for `"padding"`/`"center"`: the center cell and all 8
immediate neighbors of `(x, y)` are solid or out of bounds. -/
def windowSolidOrOOB (solids : List (List Char)) (x y : Nat)
    (is_solid : Char → Bool) : Prop :=
  ∀ r c : Fin 3,
    inRagged solids ((x : Int) + c - 1) ((y : Int) + r - 1) →
      is_solid (cellAt solids ((x : Int) + c - 1) ((y : Int) + r - 1)) = true

/-- The four orthogonal offsets exactly 2 tiles away. -/
def twoAwayOffsets : List (Int × Int) := [(-2, 0), (2, 0), (0, -2), (0, 2)]

/-- Spec clause for `"padding"` AS THE CLAIM STATES IT: some cell
exactly 2 tiles away orthogonally is in bounds (in the ragged sense) and
not solid. -/
def twoAwayAirClaim (solids : List (List Char)) (x y : Nat)
    (is_solid : Char → Bool) : Prop :=
  ∃ off ∈ twoAwayOffsets,
    inRagged solids ((x : Int) + off.1) ((y : Int) + off.2) ∧
      is_solid (cellAt solids ((x : Int) + off.1) ((y : Int) + off.2)) = false

/-- The amended 2-away clause: additionally the column must lie within
the FIRST row's length, because `has_orthogonal_air` checks
`nx >= w` against `solids[0].len()`. -/
def twoAwayAirAmended (solids : List (List Char)) (x y : Nat)
    (is_solid : Char → Bool) : Prop :=
  ∃ off ∈ twoAwayOffsets,
    inRagged solids ((x : Int) + off.1) ((y : Int) + off.2) ∧
      (x : Int) + off.1 < ((solids.headD []).length : Int) ∧
      is_solid (cellAt solids ((x : Int) + off.1) ((y : Int) + off.2)) = false

/-- The guard of the `"padding"` fallback stage in `autotile_tile_coord`
(line 438): the padding mask matches the neighborhood and 2-away
orthogonal air exists. -/
def paddingFires (solids : List (List Char)) (x y : Nat)
    (is_solid : Char → Bool) (ignores : Option String) : Bool :=
  mask_matches (get_neighborhood solids x y) "padding" is_solid ignores &&
    has_orthogonal_air solids x y is_solid

/-- Amended per-cell semantics of an explicit mask character, as a
declarative proposition over the cell's character and the mask
character.  A `0` cell fails iff the neighbor is solid-and-unignored or
out of bounds; a `1` cell fails iff the neighbor is NOT
solid-and-unignored and not out of bounds (the `ignores` filter applies
to `1` cells as well — this is the amendment); anything else matches. -/
def cellMatchesAmended (is_solid : Char → Bool) (ignores : Option String)
    (tile m : Char) : Prop :=
  if m = '0' then
    ¬((is_solid tile = true ∧ notIgnored ignores tile = true) ∨
      tile = sentinel)
  else if m = '1' then
    ¬(¬(is_solid tile = true ∧ notIgnored ignores tile = true) ∧
      tile ≠ sentinel)
  else True

/-- The predicate satisfied by the explicit rule that stage 1 of
`autotile_tile_coord` returns from: not a special token, mask matches,
and at least one candidate tile. -/
def isExplicitMatch (n : Neighborhood) (is_solid : Char → Bool)
    (ignores : Option String) (r : SetRule) : Bool :=
  (!(r.mask == "padding")) && (!(r.mask == "center")) &&
    mask_matches n r.mask is_solid ignores && !r.tiles.isEmpty

/-- The number of pixels a run with repeat byte `rep` contributes in the
flat decoder of `src/data/celeste_atlas.rs` (release semantics): a byte
of 0 wraps into a 256-pixel run. -/
def runLength (rep : Nat) : Nat :=
  if rep = 0 then 256 else rep

instance (solids : List (List Char)) (nx ny : Int) :
    Decidable (inRagged solids nx ny) := by
  unfold inRagged; infer_instance

instance (solids : List (List Char)) (x y : Nat) (is_solid : Char → Bool) :
    Decidable (windowSolidOrOOB solids x y is_solid) := by
  unfold windowSolidOrOOB; infer_instance

instance (solids : List (List Char)) (x y : Nat) (is_solid : Char → Bool) :
    Decidable (twoAwayAirClaim solids x y is_solid) := by
  unfold twoAwayAirClaim; infer_instance

instance (solids : List (List Char)) (x y : Nat) (is_solid : Char → Bool) :
    Decidable (twoAwayAirAmended solids x y is_solid) := by
  unfold twoAwayAirAmended; infer_instance

instance (is_solid : Char → Bool) (ignores : Option String) (tile m : Char) :
    Decidable (cellMatchesAmended is_solid ignores tile m) := by
  unfold cellMatchesAmended; infer_instance

/-! ## Helper lemmas -/

/-- `get_neighborhood` characterized: a window cell is the grid
character when the cell is in (ragged) bounds, and the sentinel
otherwise. -/
theorem get_neighborhood_eq (solids : List (List Char)) (x y : Nat)
    (r c : Fin 3) :
    get_neighborhood solids x y r c =
      if inRagged solids ((x : Int) + c - 1) ((y : Int) + r - 1) then
        cellAt solids ((x : Int) + c - 1) ((y : Int) + r - 1)
      else sentinel := by
  simp only [get_neighborhood, cellAt]
  by_cases h : inRagged solids ((x : Int) + c - 1) ((y : Int) + r - 1)
  · obtain ⟨h1, h2, h3, h4⟩ := h
    rw [if_pos ⟨h1, h2, h3⟩, if_pos h4, if_pos ⟨h1, h2, h3, h4⟩]
  · rw [if_neg h]
    unfold inRagged at h
    by_cases habc : 0 ≤ (x : Int) + c - 1 ∧ 0 ≤ (y : Int) + r - 1 ∧
        (y : Int) + r - 1 < (solids.length : Int)
    · rw [if_pos habc,
        if_neg (fun h4 => h ⟨habc.1, habc.2.1, habc.2.2, h4⟩)]
    · rw [if_neg habc]

/-- The per-cell boolean of the explicit-mask loop agrees with the
amended declarative per-cell semantics. -/
theorem cellBool_iff (is_solid : Char → Bool) (ignores : Option String)
    (tile m : Char) :
    cellBool is_solid ignores tile m = true ↔
      cellMatchesAmended is_solid ignores tile m := by
  unfold cellBool cellMatchesAmended
  rcases Bool.eq_false_or_eq_true (is_solid tile) with hs | hs <;>
  rcases Bool.eq_false_or_eq_true (notIgnored ignores tile) with hni | hni <;>
  by_cases hsent : tile = sentinel <;>
  by_cases h0 : m = '0' <;>
  by_cases h1 : m = '1' <;>
  simp [h0, h1, hs, hni, hsent, beq_iff_eq]

/-- Stage 1 of `autotile_tile_coord` returns the hash-selected candidate
of the first rule satisfying `isExplicitMatch`, if any. -/
theorem explicitStage_eq_find (rules : List SetRule) (n : Neighborhood)
    (x y : Nat) (is_solid : Char → Bool) (ignores : Option String) :
    explicitStage rules n x y is_solid ignores =
      (rules.find? (isExplicitMatch n is_solid ignores)).map
        (fun r => r.tiles.getD (selectIdx x y r.tiles.length) (0, 0)) := by
  induction rules with
  | nil => rfl
  | cons r rest ih =>
    by_cases hp : r.mask = "padding"
    · have hfind := List.find?_cons_of_neg (p := isExplicitMatch n is_solid
        ignores) rest (a := r) (by simp [isExplicitMatch, hp])
      simp [explicitStage, hfind, hp, ih]
    · by_cases hc : r.mask = "center"
      · have hfind := List.find?_cons_of_neg (p := isExplicitMatch n is_solid
          ignores) rest (a := r) (by simp [isExplicitMatch, hc])
        simp [explicitStage, hfind, hc, ih]
      · by_cases hmm : mask_matches n r.mask is_solid ignores
        · by_cases he : r.tiles.isEmpty
          · have hfind := List.find?_cons_of_neg (p := isExplicitMatch n
              is_solid ignores) rest (a := r) (by simp [isExplicitMatch, he])
            simp [explicitStage, hfind, hp, hc, hmm, he, ih]
          · have hfind := List.find?_cons_of_pos (p := isExplicitMatch n
              is_solid ignores) rest (a := r)
              (by simp_all [isExplicitMatch])
            simp [explicitStage, hfind, hp, hc, hmm, he]
        · have hfind := List.find?_cons_of_neg (p := isExplicitMatch n
            is_solid ignores) rest (a := r) (by simp [isExplicitMatch, hmm])
          simp [explicitStage, hfind, hp, hc, hmm, ih]

/-- The flat decode loop with `r` pending repeats first emits up to `r`
copies of the current color, then continues with a fresh run. -/
theorem dataDecodeLoop_repeats (hasAlpha : Bool) (r : Nat) :
    ∀ (n : Nat) (px : Pixel) (bytes : List Nat),
      dataDecodeLoop hasAlpha n r px bytes =
        if n ≤ r then some (List.replicate n px)
        else (dataDecodeLoop hasAlpha (n - r) 0 px bytes).map
          (fun l => List.replicate r px ++ l) := by
  induction r with
  | zero =>
    intro n px bytes
    cases n with
    | zero => simp [dataDecodeLoop]
    | succ m =>
      rw [if_neg (by omega)]
      cases h : dataDecodeLoop hasAlpha (m + 1 - 0) 0 px bytes <;>
        simp_all [Nat.sub_zero]
  | succ k ih =>
    intro n px bytes
    cases n with
    | zero => simp [dataDecodeLoop]
    | succ m =>
      rw [dataDecodeLoop, if_neg (by omega)]
      simp only [Nat.add_sub_cancel]
      rw [ih m px bytes]
      by_cases h : m ≤ k
      · rw [if_pos h, if_pos (by omega)]
        simp [List.replicate_succ]
      · rw [if_neg h, if_neg (by omega), Nat.succ_sub_succ]
        cases dataDecodeLoop hasAlpha (m - k) 0 px bytes <;>
          simp [List.replicate_succ]

/-! ## Claim C5 -/

/-- C5: `autotile_tile_coord` returns `None` if and only if the
tile-type character has no registered rule set in the tileset map; every
registered tile-type yields `Some` coordinate ((0,0) at worst), so an
unknown tile-type is distinguishable from a registered one that fell
through to the default. -/
theorem autotile_none_iff_unregistered :
    ∀ (tile_id : Char) (solids : List (List Char)) (x y : Nat)
      (tilesets : List (Char × Tileset)) (is_solid : Char → Bool),
      autotile_tile_coord tile_id solids x y tilesets is_solid = none ↔
        List.lookup tile_id tilesets = none := by
  intro tile_id solids x y tilesets is_solid
  cases h : List.lookup tile_id tilesets with
  | none => simp [autotile_tile_coord, h]
  | some ts =>
    simp only [autotile_tile_coord, h]
    cases explicitStage ts.rules (get_neighborhood solids x y) x y is_solid
        ts.ignores <;>
      cases paddingStage ts.rules ts.ignores solids
          (get_neighborhood solids x y) x y is_solid <;>
        cases centerStage ts.rules ts.ignores (get_neighborhood solids x y)
            x y is_solid <;>
          simp

/-! ## Claim C10 -/

/-- C10 counterexample: the rule-map cache is a single process-wide
`OnceCell`, not keyed by path.  After loading path `"FG.xml"`, a call
for the distinct path `"BG.xml"` does NOT yield the rule map parsed from
`"BG.xml"` (here: the `"FG.xml"` map has one tileset, the `"BG.xml"`
parse is empty, yet the second call returns the one-tileset map). -/
theorem rules_cache_not_per_path_counterexample :
    (get_tilesets_with_rules
        (fun p => if p = "FG.xml" then
          [('a', (⟨'a', "p", none, []⟩ : Tileset))] else [])
        ((get_tilesets_with_rules
          (fun p => if p = "FG.xml" then
            [('a', (⟨'a', "p", none, []⟩ : Tileset))] else [])
          none "FG.xml").2) "BG.xml").1 ≠
      (fun p => if p = "FG.xml" then
        [('a', (⟨'a', "p", none, []⟩ : Tileset))] else []) "BG.xml" := by
  decide

/-- C10 (amended): the parsed rule map is cached once per PROCESS in a
single global cell (not once per distinct path): the first call parses
its path and fills the cell, every call with a filled cell returns the
cached map unchanged regardless of the path argument, and in particular
a second call with a different path returns the first path's map. -/
theorem rules_cache_global_once :
    (∀ (load : String → List (Char × Tileset)) (p : String),
      get_tilesets_with_rules load none p = (load p, some (load p)))
    ∧ (∀ (load : String → List (Char × Tileset))
        (m : List (Char × Tileset)) (p : String),
      get_tilesets_with_rules load (some m) p = (m, some m))
    ∧ (∀ (load : String → List (Char × Tileset)) (p1 p2 : String),
      (get_tilesets_with_rules load
        ((get_tilesets_with_rules load none p1).2) p2).1 = load p1) :=
  ⟨fun _ _ => rfl, fun _ _ _ => rfl, fun _ _ _ => rfl⟩

/-! ## Claim C8 -/

/-- C8: `load_atlas` is atomic with respect to the registry: a missing
meta file yields a not-found error, a nested decode failure propagates
that error, and in every failure case the manager's atlas map and
texture-id index are unchanged; only on success is the atlas registered
under the requested name. -/
theorem load_atlas_atomic :
    ∀ (metaExists : Bool) (loadMeta : Except IoErrorE AtlasE)
      (mgr : AtlasManagerE) (name : String),
      ((load_atlas metaExists loadMeta mgr name).1 ≠ Except.ok () →
        (load_atlas metaExists loadMeta mgr name).2 = mgr)
      ∧ (metaExists = false →
        load_atlas metaExists loadMeta mgr name = (.error .notFound, mgr))
      ∧ (∀ e, metaExists = true → loadMeta = .error e →
        load_atlas metaExists loadMeta mgr name = (.error e, mgr))
      ∧ (∀ atlas, metaExists = true → loadMeta = .ok atlas →
        (load_atlas metaExists loadMeta mgr name).1 = .ok () ∧
          (load_atlas metaExists loadMeta mgr name).2.atlases =
            (name, atlas) :: mgr.atlases) := by
  intro metaExists loadMeta mgr name
  cases metaExists <;> cases loadMeta <;> simp [load_atlas]

/-- Witness for C8: a missing meta file and a failing nested decode both
leave a concrete empty manager unchanged with the corresponding error. -/
theorem load_atlas_atomic_witness :
    load_atlas false (.ok ⟨"Gameplay", [1]⟩) ⟨[], []⟩ "Gameplay" =
      (.error .notFound, (⟨[], []⟩ : AtlasManagerE)) ∧
    load_atlas true (.error (.decodeFailed "bad data")) ⟨[], []⟩ "Gameplay" =
      (.error (.decodeFailed "bad data"), (⟨[], []⟩ : AtlasManagerE)) :=
  ⟨(load_atlas_atomic false (.ok ⟨"Gameplay", [1]⟩) ⟨[], []⟩ "Gameplay").2.1
      rfl,
    (load_atlas_atomic true (.error (.decodeFailed "bad data")) ⟨[], []⟩
      "Gameplay").2.2.1 _ rfl rfl⟩

/-! ## Claim C7 -/

/-- C7 (code bug in `src/data/celeste_atlas.rs`): on the stream for a
2x1 no-alpha image whose first run has repeat byte 0, the flat decoder
underflows its `u8` repeat counter (`repeats_left -= 1` on 0): under
release (wrapping) semantics the run behaves as a 256-long repeat, so
the second pixel repeats the first color and the second run is never
read; the row-based decoder in `src/celeste_atlas.rs`, which guards
`rep = 0`, consumes exactly one pixel for the run as the claim states
(a debug build of the flat decoder panics instead). -/
theorem data_decoder_zero_repeat_bug :
    data_load_data_file
        [2, 0, 0, 0, 1, 0, 0, 0, 0, 0, 10, 20, 30, 1, 40, 50, 60] =
      some (2, 1, [(30, 20, 10, 255), (30, 20, 10, 255)]) ∧
    row_load_data_file (fun _ ch => ch)
        [2, 0, 0, 0, 1, 0, 0, 0, 0, 0, 10, 20, 30, 1, 40, 50, 60] =
      some (2, 1, [(30, 20, 10, 255), (60, 50, 40, 255)]) ∧
    ((30, 20, 10, 255) : Pixel) ≠ (60, 50, 40, 255) := by
  refine ⟨rfl, rfl, by decide⟩

/-- `paddingStage` result when the find succeeds on a rule with
candidates. -/
theorem paddingStage_some (rules : List SetRule) (ignores : Option String)
    (solids : List (List Char)) (n : Neighborhood) (x y : Nat)
    (is_solid : Char → Bool) (r : SetRule)
    (h : rules.find? (paddingPred n solids x y is_solid ignores) = some r)
    (he : r.tiles.isEmpty = false) :
    paddingStage rules ignores solids n x y is_solid =
      some (r.tiles.getD (selectIdx x y r.tiles.length) (0, 0)) := by
  simp [paddingStage, h, he]

/-- `paddingStage` result when the find fails. -/
theorem paddingStage_none (rules : List SetRule) (ignores : Option String)
    (solids : List (List Char)) (n : Neighborhood) (x y : Nat)
    (is_solid : Char → Bool)
    (h : rules.find? (paddingPred n solids x y is_solid ignores) = none) :
    paddingStage rules ignores solids n x y is_solid = none := by
  simp [paddingStage, h]

/-- `centerStage` result when the find succeeds on a rule with
candidates. -/
theorem centerStage_some (rules : List SetRule) (ignores : Option String)
    (n : Neighborhood) (x y : Nat) (is_solid : Char → Bool) (r : SetRule)
    (h : rules.find? (centerPred n is_solid ignores) = some r)
    (he : r.tiles.isEmpty = false) :
    centerStage rules ignores n x y is_solid =
      some (r.tiles.getD (selectIdx x y r.tiles.length) (0, 0)) := by
  simp [centerStage, h, he]

/-- `centerStage` result when the find fails. -/
theorem centerStage_none (rules : List SetRule) (ignores : Option String)
    (n : Neighborhood) (x y : Nat) (is_solid : Char → Bool)
    (h : rules.find? (centerPred n is_solid ignores) = none) :
    centerStage rules ignores n x y is_solid = none := by
  simp [centerStage, h]

/-- Any `some` result of stage 1 is the hash-selected candidate of some
rule with candidates. -/
theorem explicitStage_inv (rules : List SetRule) (n : Neighborhood)
    (x y : Nat) (is_solid : Char → Bool) (ignores : Option String)
    (c : Nat × Nat)
    (h : explicitStage rules n x y is_solid ignores = some c) :
    ∃ r ∈ rules, r.tiles ≠ [] ∧
      c = r.tiles.getD (selectIdx x y r.tiles.length) (0, 0) := by
  rw [explicitStage_eq_find] at h
  cases hf : rules.find? (isExplicitMatch n is_solid ignores) with
  | none => rw [hf] at h; cases h
  | some r =>
    rw [hf, Option.map_some'] at h
    have hpr := List.find?_some hf
    simp only [isExplicitMatch, Bool.and_eq_true, Bool.not_eq_true'] at hpr
    exact ⟨r, List.mem_of_find?_eq_some hf,
      by simpa [List.isEmpty_iff] using hpr.2,
      (Option.some.injEq _ _).mp h.symm⟩

/-- Any `some` result of stage 2 is the hash-selected candidate of some
rule with candidates. -/
theorem paddingStage_inv (rules : List SetRule) (ignores : Option String)
    (solids : List (List Char)) (n : Neighborhood) (x y : Nat)
    (is_solid : Char → Bool) (c : Nat × Nat)
    (h : paddingStage rules ignores solids n x y is_solid = some c) :
    ∃ r ∈ rules, r.tiles ≠ [] ∧
      c = r.tiles.getD (selectIdx x y r.tiles.length) (0, 0) := by
  cases hf : rules.find? (paddingPred n solids x y is_solid ignores) with
  | none => simp [paddingStage, hf] at h
  | some r =>
    by_cases he : r.tiles.isEmpty
    · simp [paddingStage, hf, he] at h
    · simp only [paddingStage, hf, if_neg he, Option.some.injEq] at h
      exact ⟨r, List.mem_of_find?_eq_some hf,
        by simpa [List.isEmpty_iff] using he, h.symm⟩

/-- Any `some` result of stage 3 is the hash-selected candidate of some
rule with candidates. -/
theorem centerStage_inv (rules : List SetRule) (ignores : Option String)
    (n : Neighborhood) (x y : Nat) (is_solid : Char → Bool) (c : Nat × Nat)
    (h : centerStage rules ignores n x y is_solid = some c) :
    ∃ r ∈ rules, r.tiles ≠ [] ∧
      c = r.tiles.getD (selectIdx x y r.tiles.length) (0, 0) := by
  cases hf : rules.find? (centerPred n is_solid ignores) with
  | none => simp [centerStage, hf] at h
  | some r =>
    by_cases he : r.tiles.isEmpty
    · simp [centerStage, hf, he] at h
    · simp only [centerStage, hf, if_neg he, Option.some.injEq] at h
      exact ⟨r, List.mem_of_find?_eq_some hf,
        by simpa [List.isEmpty_iff] using he, h.symm⟩

/-! ## Claim C4 -/

/-- C4 counterexample: the tie-break is computed in wrapping `u64`
arithmetic, so at `x = 2^62`, `y = 0` and a rule with 5 candidates the
code selects index `((2^62 * 31) mod 2^64) mod 5 = 2` — candidate
`(2,2)` — while the claim's formula `(x*31 + y*17) mod 5` gives index 4,
candidate `(4,4)`.  (A debug build panics on the `u64` overflow
instead.) -/
theorem tiebreak_wrap_counterexample :
    autotile_tile_coord 'a' [] (2 ^ 62) 0
        [('a', ⟨'a', "p", none,
          [⟨"xxx-xxx-xxx", [(0, 0), (1, 1), (2, 2), (3, 3), (4, 4)]⟩]⟩)]
        (fun ch => ch == '1') = some (2, 2) ∧
      (2 ^ 62 * 31 + 0 * 17) % 5 = 4 ∧ ((2, 2) : Nat × Nat) ≠ (4, 4) := by
  refine ⟨by decide, by decide, by decide⟩

/-- C4 (amended): the candidate index is
`((x*31 + y*17) mod 2^64) mod N` — the claim's formula evaluated in
wrapping `u64` arithmetic, which coincides with `(x*31 + y*17) mod N`
whenever `x*31 + y*17 < 2^64`, i.e. for all practically reachable
coordinates — it is always in range, and every result of
`autotile_tile_coord` other than the unconditional default is the
hash-selected candidate of some rule of the registered tileset (the
selection is a pure function of the arguments by construction). -/
theorem tiebreak_hash_spec :
    (∀ x y len : Nat, 0 < len →
      selectIdx x y len = (x * 31 + y * 17) % 2 ^ 64 % len ∧
        selectIdx x y len < len)
    ∧ (∀ (tile_id : Char) (solids : List (List Char)) (x y : Nat)
        (tilesets : List (Char × Tileset)) (is_solid : Char → Bool)
        (c : Nat × Nat),
        autotile_tile_coord tile_id solids x y tilesets is_solid = some c →
        c = (0, 0) ∨ ∃ ts r, List.lookup tile_id tilesets = some ts ∧
          r ∈ ts.rules ∧ r.tiles ≠ [] ∧
          c = r.tiles.getD (selectIdx x y r.tiles.length) (0, 0)) := by
  constructor
  · intro x y len hlen
    refine ⟨?_, Nat.mod_lt _ hlen⟩
    unfold selectIdx
    rw [Nat.add_mod (x * 31) (y * 17) (2 ^ 64)]
  · intro tile_id solids x y tilesets is_solid c hc
    simp only [autotile_tile_coord] at hc
    cases hts : List.lookup tile_id tilesets with
    | none => simp [hts] at hc
    | some ts =>
      simp only [hts] at hc
      cases hex : explicitStage ts.rules (get_neighborhood solids x y) x y
          is_solid ts.ignores with
      | some c0 =>
        simp only [hex, Option.some.injEq] at hc
        obtain ⟨r, hmem, hne, hceq⟩ :=
          explicitStage_inv _ _ _ _ _ _ _ hex
        exact Or.inr ⟨ts, r, rfl, hmem, hne, hc ▸ hceq⟩
      | none =>
        simp only [hex] at hc
        cases hpad : paddingStage ts.rules ts.ignores solids
            (get_neighborhood solids x y) x y is_solid with
        | some c0 =>
          simp only [hpad, Option.some.injEq] at hc
          obtain ⟨r, hmem, hne, hceq⟩ :=
            paddingStage_inv _ _ _ _ _ _ _ _ hpad
          exact Or.inr ⟨ts, r, rfl, hmem, hne, hc ▸ hceq⟩
        | none =>
          simp only [hpad] at hc
          cases hcen : centerStage ts.rules ts.ignores
              (get_neighborhood solids x y) x y is_solid with
          | some c0 =>
            simp only [hcen, Option.some.injEq] at hc
            obtain ⟨r, hmem, hne, hceq⟩ :=
              centerStage_inv _ _ _ _ _ _ _ hcen
            exact Or.inr ⟨ts, r, rfl, hmem, hne, hc ▸ hceq⟩
          | none =>
            simp only [hcen, Option.some.injEq] at hc
            exact Or.inl hc.symm

/-- Witness for C4 (amended): the hash formula and the range bound hold
at `(x, y, N) = (3, 5, 4)`, and a registered tileset with no rules falls
through to the default, exercising the second part. -/
theorem tiebreak_hash_spec_witness :
    (selectIdx 3 5 4 = (3 * 31 + 5 * 17) % 2 ^ 64 % 4 ∧
      selectIdx 3 5 4 < 4) ∧
    (((0, 0) : Nat × Nat) = (0, 0) ∨ ∃ ts r,
      List.lookup 'a' [('a', (⟨'a', "p", none, []⟩ : Tileset))] = some ts ∧
        r ∈ ts.rules ∧ r.tiles ≠ [] ∧
        ((0, 0) : Nat × Nat) = r.tiles.getD (selectIdx 0 0 r.tiles.length)
          (0, 0)) :=
  ⟨tiebreak_hash_spec.1 3 5 4 (by decide),
    tiebreak_hash_spec.2 'a' [] 0 0 [('a', ⟨'a', "p", none, []⟩)]
      (fun ch => ch == '1') (0, 0) (by decide)⟩

/-! ## Claim C1 -/

/-- C1: priority ordering of `autotile_tile_coord` for a registered
tile-type all of whose rules carry at least one candidate tile (the
spec's data model: "plus one or more candidate pixel-coordinate pairs").
The first explicit (non-"padding", non-"center") rule in
declared+inherited order whose mask matches wins, and neither "padding"
nor "center" is consulted; "padding" is consulted only if no explicit
mask matched; "center" only fires after "padding" failed; and `(0,0)` is
returned if nothing else matched. -/
theorem autotile_priority
    (tile_id : Char) (solids : List (List Char)) (x y : Nat)
    (tilesets : List (Char × Tileset)) (is_solid : Char → Bool)
    (ts : Tileset)
    (hts : List.lookup tile_id tilesets = some ts)
    (hne : ∀ r ∈ ts.rules, r.tiles ≠ []) :
    (∀ r, ts.rules.find? (isExplicitMatch (get_neighborhood solids x y)
        is_solid ts.ignores) = some r →
      autotile_tile_coord tile_id solids x y tilesets is_solid =
        some (r.tiles.getD (selectIdx x y r.tiles.length) (0, 0)))
    ∧ (ts.rules.find? (isExplicitMatch (get_neighborhood solids x y)
        is_solid ts.ignores) = none →
      ∀ r, ts.rules.find? (paddingPred (get_neighborhood solids x y) solids
          x y is_solid ts.ignores) = some r →
        autotile_tile_coord tile_id solids x y tilesets is_solid =
          some (r.tiles.getD (selectIdx x y r.tiles.length) (0, 0)))
    ∧ (ts.rules.find? (isExplicitMatch (get_neighborhood solids x y)
        is_solid ts.ignores) = none →
      ts.rules.find? (paddingPred (get_neighborhood solids x y) solids x y
        is_solid ts.ignores) = none →
      ∀ r, ts.rules.find? (centerPred (get_neighborhood solids x y)
          is_solid ts.ignores) = some r →
        autotile_tile_coord tile_id solids x y tilesets is_solid =
          some (r.tiles.getD (selectIdx x y r.tiles.length) (0, 0)))
    ∧ (ts.rules.find? (isExplicitMatch (get_neighborhood solids x y)
        is_solid ts.ignores) = none →
      ts.rules.find? (paddingPred (get_neighborhood solids x y) solids x y
        is_solid ts.ignores) = none →
      ts.rules.find? (centerPred (get_neighborhood solids x y) is_solid
        ts.ignores) = none →
      autotile_tile_coord tile_id solids x y tilesets is_solid =
        some (0, 0)) := by
  refine ⟨?_, ?_, ?_, ?_⟩
  · intro r hr
    simp only [autotile_tile_coord, hts, explicitStage_eq_find, hr,
      Option.map_some']
  · intro hnone r hr
    have he : r.tiles.isEmpty = false := by
      simpa [List.isEmpty_iff] using hne r (List.mem_of_find?_eq_some hr)
    simp only [autotile_tile_coord, hts, explicitStage_eq_find, hnone,
      Option.map_none',
      paddingStage_some _ _ _ _ _ _ _ _ hr he]
  · intro hnone hpad r hr
    have he : r.tiles.isEmpty = false := by
      simpa [List.isEmpty_iff] using hne r (List.mem_of_find?_eq_some hr)
    simp only [autotile_tile_coord, hts, explicitStage_eq_find, hnone,
      Option.map_none',
      paddingStage_none _ _ _ _ _ _ _ hpad,
      centerStage_some _ _ _ _ _ _ _ hr he]
  · intro hnone hpad hcen
    simp only [autotile_tile_coord, hts, explicitStage_eq_find, hnone,
      Option.map_none',
      paddingStage_none _ _ _ _ _ _ _ hpad,
      centerStage_none _ _ _ _ _ _ hcen]

/-- Witness for C1: a concrete tileset whose explicit rule
`"xxx-x1x-xxx"` (center solid) matches at the corner of a 2x2 solid
grid and wins with its sole candidate `(2, 3)`. -/
theorem autotile_priority_witness :
    autotile_tile_coord 'a' [['1', '1'], ['1', '1']] 0 0
        [('a', ⟨'a', "p", none, [⟨"xxx-x1x-xxx", [(2, 3)]⟩]⟩)]
        (fun ch => ch == '1') = some (2, 3) := by
  have h := (autotile_priority 'a' [['1', '1'], ['1', '1']] 0 0
      [('a', ⟨'a', "p", none, [⟨"xxx-x1x-xxx", [(2, 3)]⟩]⟩)]
      (fun ch => ch == '1') ⟨'a', "p", none, [⟨"xxx-x1x-xxx", [(2, 3)]⟩]⟩
      (by decide) (by decide)).1 ⟨"xxx-x1x-xxx", [(2, 3)]⟩ (by decide)
  exact h.trans (by decide)

/-! ## Claim C2 -/

/-- C2 counterexample: with `ignores = "i"`, a solid in-bounds neighbor
`'i'` FAILS a `1` mask cell (the code applies the `ignores` filter to
`1` cells too), whereas the claim's iff ("a 1 cell fails if and only if
the neighbor is not solid and not out of bounds") predicts a match. -/
theorem mask_one_ignores_counterexample :
    mask_matches (![![ '1', 'i', '1'], ![ '1', '1', '1'], ![ '1', '1', '1']])
        "x1x-xxx-xxx" (fun ch => ch == '1' || ch == 'i') (some "i") = false ∧
      (fun ch => ch == '1' || ch == 'i') 'i' = true ∧
      (![![ '1', 'i', '1'], ![ '1', '1', '1'], ![ '1', '1', '1']] :
        Neighborhood) 0 1 = 'i' ∧
      'i' ≠ sentinel := by
  exact ⟨by decide, by decide, by decide, by decide⟩

/-- C2 (amended): for every neighborhood and every well-formed explicit
`-`-delimited 3x3 mask, the mask matches iff every cell satisfies: `0`
fails iff the neighbor is solid-and-not-ignored or out of bounds; `1`
fails iff the neighbor is NOT solid-and-not-ignored and not out of
bounds (the `ignores` filter applies to `1` cells as well — the
amendment); any other character (including `x`/`X`) always matches.
Out-of-bounds neighbors are represented by the sentinel, which counts as
solid for `1` cells, so a corner cell with an all-neighbors-solid mask
matches when all in-bounds neighbors are solid. -/
theorem mask_matches_explicit_iff
    (n : Neighborhood) (mask : String) (is_solid : Char → Bool)
    (ignores : Option String) (r0 r1 r2 : List Char)
    (hnc : mask ≠ "center") (hnp : mask ≠ "padding")
    (hsplit : splitDash mask.toList = [r0, r1, r2])
    (h0 : r0.length = 3) (h1 : r1.length = 3) (h2 : r2.length = 3) :
    (mask_matches n mask is_solid ignores = true ↔
      ∀ y x : Fin 3, cellMatchesAmended is_solid ignores (n y x)
        (([r0, r1, r2].getD y.val []).getD x.val ' ')) := by
  have hall : ∀ (F : Fin 3 → Bool),
      ((List.finRange 3).all F = true ↔ ∀ i, F i = true) := by
    intro F
    rw [List.all_eq_true]
    exact ⟨fun h i => h i (List.mem_finRange i), fun h i _ => h i⟩
  rw [mask_matches, if_neg hnc, if_neg hnp]
  simp only [hsplit]
  rw [if_neg (by simp), hall]
  apply forall_congr'
  intro y
  have g0 : [r0, r1, r2].getD (0 : Nat) [] = r0 := rfl
  have g1 : [r0, r1, r2].getD (1 : Nat) [] = r1 := rfl
  have g2 : [r0, r1, r2].getD (2 : Nat) [] = r2 := rfl
  fin_cases y
  · rw [g0, if_neg (by omega), hall]
    exact forall_congr' fun x =>
      cellBool_iff is_solid ignores (n 0 x) (r0.getD x.val ' ')
  · rw [g1, if_neg (by omega), hall]
    exact forall_congr' fun x =>
      cellBool_iff is_solid ignores (n 1 x) (r1.getD x.val ' ')
  · rw [g2, if_neg (by omega), hall]
    exact forall_congr' fun x =>
      cellBool_iff is_solid ignores (n 2 x) (r2.getD x.val ' ')

/-- Witness for C2 (amended), also exercising the claim's corner
scenario: at grid corner (0,0) of an all-solid 2x2 grid, the mask
`"111-1x1-111"` (all 8 neighbors solid) matches because the
out-of-bounds neighbors count as solid. -/
theorem mask_matches_explicit_iff_witness :
    mask_matches (get_neighborhood [['1', '1'], ['1', '1']] 0 0)
      "111-1x1-111" (fun ch => ch == '1') none = true :=
  (mask_matches_explicit_iff (get_neighborhood [['1', '1'], ['1', '1']] 0 0)
      "111-1x1-111" (fun ch => ch == '1') none
      ['1', '1', '1'] ['1', 'x', '1'] ['1', '1', '1']
      (by decide) (by decide) (by decide) (by decide) (by decide)
      (by decide)).mpr (by decide)

/-! ## Claim C3 -/

/-- The `"padding"` mask branch of `mask_matches`, on a neighborhood
extracted from a sentinel-free grid, holds iff the center and all 8
immediate neighbors are solid or out of bounds. -/
theorem padding_mask_iff
    (solids : List (List Char)) (x y : Nat) (is_solid : Char → Bool)
    (ignores : Option String)
    (hsent : ∀ row ∈ solids, ∀ ch ∈ row, ch ≠ sentinel) :
    (mask_matches (get_neighborhood solids x y) "padding" is_solid ignores
      = true ↔ windowSolidOrOOB solids x y is_solid) := by
  have key : ∀ r c : Fin 3,
      ((get_neighborhood solids x y r c == sentinel ||
        is_solid (get_neighborhood solids x y r c)) = true ↔
      (inRagged solids ((x : Int) + c - 1) ((y : Int) + r - 1) →
        is_solid (cellAt solids ((x : Int) + c - 1) ((y : Int) + r - 1))
          = true)) := by
    intro r c
    rw [get_neighborhood_eq]
    by_cases h : inRagged solids ((x : Int) + c - 1) ((y : Int) + r - 1)
    · rw [if_pos h]
      have hne : cellAt solids ((x : Int) + c - 1) ((y : Int) + r - 1)
          ≠ sentinel := by
        obtain ⟨h1, h2, h3, h4⟩ := h
        unfold cellAt
        have hylt : ((y : Int) + r - 1).toNat < solids.length := by omega
        have hxlt : ((x : Int) + c - 1).toNat <
            (solids.getD ((y : Int) + r - 1).toNat []).length := by omega
        rw [List.getD_eq_getElem _ _ hylt] at hxlt ⊢
        rw [List.getD_eq_getElem _ _ hxlt]
        exact hsent _ (List.getElem_mem hylt) _ (List.getElem_mem hxlt)
      simp [beq_iff_eq, hne, h]
    · rw [if_neg h]
      simp [h]
  rw [mask_matches, if_neg (by decide), if_pos rfl]
  have flip : ∀ t : Char, ((t == sentinel || is_solid t) = true) ↔
      ¬((t != sentinel && !is_solid t) = true) := by
    intro t
    cases hh : (t == sentinel) <;> cases hs : is_solid t <;>
      simp [bne, hh, hs]
  constructor
  · intro hm r c
    intro hr
    by_cases hcen : ((get_neighborhood solids x y 1 1 != sentinel &&
        !is_solid (get_neighborhood solids x y 1 1)) = true)
    · rw [if_pos hcen] at hm; cases hm
    · rw [if_neg hcen] at hm
      by_cases hcc : r = 1 ∧ c = 1
      · obtain ⟨hr1, hc1⟩ := hcc
        subst hr1; subst hc1
        exact ((key 1 1).mp ((flip _).mpr hcen)) hr
      · rw [List.all_eq_true] at hm
        have hmr := hm r (List.mem_finRange r)
        rw [List.all_eq_true] at hmr
        have hmc := hmr c (List.mem_finRange c)
        simp only [Bool.or_eq_true, Bool.and_eq_true, decide_eq_true_eq]
          at hmc
        rcases hmc with ⟨hr1, hc1⟩ | hcell
        · exact absurd ⟨hr1, hc1⟩ hcc
        · exact ((key r c).mp (by simpa using hcell)) hr
  · intro hw
    have hcen : ¬((get_neighborhood solids x y 1 1 != sentinel &&
        !is_solid (get_neighborhood solids x y 1 1)) = true) :=
      (flip _).mp ((key 1 1).mpr (hw 1 1))
    rw [if_neg hcen, List.all_eq_true]
    intro r _
    rw [List.all_eq_true]
    intro c _
    simp only [Bool.or_eq_true, Bool.and_eq_true, decide_eq_true_eq]
    exact Or.inr (by simpa using (key r c).mpr (hw r c))

/-- `has_orthogonal_air` holds iff some cell exactly 2 tiles away
orthogonally is in ragged bounds, within the FIRST row's width, and not
solid. -/
theorem has_orthogonal_air_iff
    (solids : List (List Char)) (x y : Nat) (is_solid : Char → Bool) :
    (has_orthogonal_air solids x y is_solid = true ↔
      twoAwayAirAmended solids x y is_solid) := by
  unfold has_orthogonal_air twoAwayAirAmended
  rw [List.any_eq_true]
  have body : ∀ off : Int × Int,
      (((if (x : Int) + off.1 < 0 ∨ (y : Int) + off.2 < 0 ∨
          (y : Int) + off.2 ≥ (solids.length : Int) ∨
          (x : Int) + off.1 ≥ (if solids.length > 0 then
            (((solids.headD []).length : Int)) else 0) then false
        else
          if (solids.getD ((y : Int) + off.2).toNat []).length ≤
              ((x : Int) + off.1).toNat then false
          else !is_solid ((solids.getD ((y : Int) + off.2).toNat []).getD
            ((x : Int) + off.1).toNat sentinel)) = true) ↔
      (inRagged solids ((x : Int) + off.1) ((y : Int) + off.2) ∧
        (x : Int) + off.1 < ((solids.headD []).length : Int) ∧
        is_solid (cellAt solids ((x : Int) + off.1) ((y : Int) + off.2))
          = false)) := by
    intro off
    unfold inRagged cellAt
    cases solids with
    | nil =>
      rw [if_pos (by simp; omega)]
      simp
      omega
    | cons row0 rest =>
      by_cases hb : (x : Int) + off.1 < 0 ∨ (y : Int) + off.2 < 0 ∨
          (y : Int) + off.2 ≥ (((row0 :: rest).length : Int)) ∨
          (x : Int) + off.1 ≥ (if (row0 :: rest).length > 0 then
            ((((row0 :: rest).headD []).length : Int)) else 0)
      · rw [if_pos hb]
        simp only [List.headD_cons] at hb ⊢
        rw [if_pos (by simp)] at hb
        constructor
        · intro h; cases h
        · rintro ⟨⟨h1, h2, h3, h4⟩, h5, h6⟩
          exfalso
          omega
      · rw [if_neg hb]
        simp only [List.headD_cons] at hb ⊢
        rw [if_pos (by simp)] at hb
        push_neg at hb
        obtain ⟨h1, h2, h3, h4⟩ := hb
        by_cases hrow : ((row0 :: rest).getD ((y : Int) + off.2).toNat
            []).length ≤ ((x : Int) + off.1).toNat
        · rw [if_pos hrow]
          constructor
          · intro h; cases h
          · rintro ⟨⟨g1, g2, g3, g4⟩, h5, h6⟩
            exfalso
            omega
        · rw [if_neg hrow]
          rw [Bool.not_eq_true']
          constructor
          · intro h
            exact ⟨⟨by omega, by omega, by omega, by omega⟩, by omega, h⟩
          · rintro ⟨⟨g1, g2, g3, g4⟩, h5, h6⟩
            exact h6
      
  constructor
  · rintro ⟨off, hmem, hoff⟩
    exact ⟨off, hmem, (body off).mp hoff⟩
  · rintro ⟨off, hmem, hoff⟩
    exact ⟨off, by simpa [twoAwayOffsets] using hmem, (body off).mpr hoff⟩

/-- C3 counterexample: on a ragged grid whose first row is shorter than
the rows below, the cell `(4, 2)` two tiles to the right of `(2, 2)` is
in bounds in its own row and holds air, and the whole 3x3 window around
`(2, 2)` is solid — the claim says "padding" fires — yet the code's
padding guard is false, because `has_orthogonal_air` also requires the
column to be within the FIRST row's length (3). -/
theorem padding_ragged_counterexample :
    windowSolidOrOOB [['1', '1', '1'], ['1', '1', '1', '1', '1'],
        ['1', '1', '1', '1', '0'], ['1', '1', '1', '1', '1']] 2 2
      (fun ch => ch == '1') ∧
    twoAwayAirClaim [['1', '1', '1'], ['1', '1', '1', '1', '1'],
        ['1', '1', '1', '1', '0'], ['1', '1', '1', '1', '1']] 2 2
      (fun ch => ch == '1') ∧
    paddingFires [['1', '1', '1'], ['1', '1', '1', '1', '1'],
        ['1', '1', '1', '1', '0'], ['1', '1', '1', '1', '1']] 2 2
      (fun ch => ch == '1') none = false := by
  exact ⟨by decide, by decide, by decide⟩

/-- C3 (amended): for every sentinel-free grid, the "padding" stage
guard of `autotile_tile_coord` fires iff the center cell and all 8
immediate neighbors are solid-or-out-of-bounds AND at least one of the
four cells exactly 2 tiles away orthogonally is in bounds, within the
FIRST row's width (the amendment: on ragged grids, a 2-away cell beyond
the first row's length is treated as out of bounds), and not solid; with
no such 2-away air cell, "padding" does not fire even on a fully solid
window. -/
theorem padding_fires_iff
    (solids : List (List Char)) (x y : Nat) (is_solid : Char → Bool)
    (ignores : Option String)
    (hsent : ∀ row ∈ solids, ∀ ch ∈ row, ch ≠ sentinel) :
    (paddingFires solids x y is_solid ignores = true ↔
      windowSolidOrOOB solids x y is_solid ∧
        twoAwayAirAmended solids x y is_solid) := by
  unfold paddingFires
  rw [Bool.and_eq_true]
  exact and_congr (padding_mask_iff solids x y is_solid ignores hsent)
    (has_orthogonal_air_iff solids x y is_solid)

/-- Witness for C3 (amended): a 3x4 grid, solid except one air cell two
tiles below the center, makes the padding guard fire at `(1, 1)`. -/
theorem padding_fires_iff_witness :
    paddingFires [['1', '1', '1'], ['1', '1', '1'], ['1', '1', '1'],
      ['1', '0', '1']] 1 1 (fun ch => ch == '1') none = true :=
  (padding_fires_iff [['1', '1', '1'], ['1', '1', '1'], ['1', '1', '1'],
      ['1', '0', '1']] 1 1 (fun ch => ch == '1') none
    (by decide)).mpr ⟨by decide, by decide⟩

/-! ## Claim C6 -/

/-- C6 counterexample: the row-based decoder in `src/celeste_atlas.rs`
RESETS the repeat counter at every row start, so for a 2x2 no-alpha
image whose first run has repeat byte 4, the run's two remaining repeats
are discarded at the row boundary and two further runs are read; the
flat decoder in `src/data/celeste_atlas.rs` lets the same run cover all
four pixels.  The two decoders produce different pixel sequences from
the same byte stream, refuting the claim for the row-based decoder. -/
theorem row_decoder_resets_counterexample :
    row_load_data_file (fun _ ch => ch)
        [2, 0, 0, 0, 2, 0, 0, 0, 0, 4, 10, 20, 30, 1, 40, 50, 60,
          1, 70, 80, 90] =
      some (2, 2, [(30, 20, 10, 255), (30, 20, 10, 255),
        (60, 50, 40, 255), (90, 80, 70, 255)]) ∧
    data_load_data_file
        [2, 0, 0, 0, 2, 0, 0, 0, 0, 4, 10, 20, 30, 1, 40, 50, 60,
          1, 70, 80, 90] =
      some (2, 2, [(30, 20, 10, 255), (30, 20, 10, 255),
        (30, 20, 10, 255), (30, 20, 10, 255)]) ∧
    ((60, 50, 40, 255) : Pixel) ≠ (30, 20, 10, 255) := by
  exact ⟨rfl, rfl, by decide⟩

/-- C6 (amended): in the flat decoder of `src/data/celeste_atlas.rs`,
repeat counts do carry across row boundaries: the decode loop depends
only on the total pixel count `width * height` (not on where the rows
fall), and each run contributes exactly `runLength rep` consecutive
pixels of the flat stream (truncated at the image end) before the next
run is read.  The row-based decoder in `src/celeste_atlas.rs` instead
resets the pending repeat count to zero at the start of every row. -/
theorem data_decoder_flat_runs :
    (∀ (hasAlpha : Bool) (n rep : Nat) (px px0 : Pixel)
        (bytes rest : List Nat),
      readRun hasAlpha bytes = some (rep, px, rest) →
      dataDecodeLoop hasAlpha n 0 px0 bytes =
        if n ≤ runLength rep then some (List.replicate n px)
        else (dataDecodeLoop hasAlpha (n - runLength rep) 0 px rest).map
          (fun l => List.replicate (runLength rep) px ++ l))
    ∧ (∀ (hasAlpha : Bool) (px0 : Pixel) (bytes : List Nat)
        (w h w2 h2 : Nat), w * h = w2 * h2 →
      dataDecodeLoop hasAlpha (w * h) 0 px0 bytes =
        dataDecodeLoop hasAlpha (w2 * h2) 0 px0 bytes) := by
  constructor
  · intro hasAlpha n rep px px0 bytes rest hread
    cases n with
    | zero =>
      rw [if_pos (by unfold runLength; split <;> omega)]
      simp [dataDecodeLoop]
    | succ m =>
      simp only [dataDecodeLoop, hread]
      rw [dataDecodeLoop_repeats]
      have hrl : runLength rep = (if rep = 0 then 255 else rep - 1) + 1 := by
        unfold runLength; split <;> omega
      rw [hrl]
      by_cases h : m ≤ (if rep = 0 then 255 else rep - 1)
      · simp [if_pos h, Nat.succ_le_succ h, List.replicate_succ]
      · have h2 : ¬ (m + 1 ≤ (if rep = 0 then 255 else rep - 1) + 1) := by
          omega
        simp only [if_neg h, if_neg h2]
        have hsub : m + 1 - ((if rep = 0 then 255 else rep - 1) + 1) =
            m - (if rep = 0 then 255 else rep - 1) := by omega
        rw [hsub]
        cases dataDecodeLoop hasAlpha
            (m - (if rep = 0 then 255 else rep - 1)) 0 px rest <;>
          simp [List.replicate_succ]
  · intro hasAlpha px0 bytes w h w2 h2 hwh
    rw [hwh]

/-- Witness for C6 (amended): a run with repeat byte 2 inside a 5-pixel
flat stream contributes exactly 2 pixels before the next run is read,
and a 2x3 and a 3x2 header decode the same byte stream identically. -/
theorem data_decoder_flat_runs_witness :
    (dataDecodeLoop false 5 0 (0, 0, 0, 255) [2, 9, 8, 7, 1, 3, 2, 1] =
      if 5 ≤ runLength 2 then
        some (List.replicate 5 ((7, 8, 9, 255) : Pixel))
      else (dataDecodeLoop false (5 - runLength 2) 0 (7, 8, 9, 255)
        [1, 3, 2, 1]).map
        (fun l => List.replicate (runLength 2) ((7, 8, 9, 255) : Pixel)
          ++ l)) ∧
    dataDecodeLoop false (2 * 3) 0 (0, 0, 0, 255) [6, 9, 8, 7] =
      dataDecodeLoop false (3 * 2) 0 (0, 0, 0, 255) [6, 9, 8, 7] :=
  ⟨data_decoder_flat_runs.1 false 5 2 (7, 8, 9, 255) (0, 0, 0, 255)
      [2, 9, 8, 7, 1, 3, 2, 1] [1, 3, 2, 1] rfl,
    data_decoder_flat_runs.2 false (0, 0, 0, 255) [6, 9, 8, 7] 2 3 3 2 rfl⟩

/-! ## Claim C9 -/

/-- The inheritance pass leaves a tile id untouched when it never occurs
as a key of the copy map. -/
theorem applyCopies_of_notkey (copies : List (Char × Char))
    (m0 : Char → List SetRule) (c : Char)
    (h : ∀ p ∈ copies, p.1 ≠ c) :
    applyCopies m0 copies c = m0 c := by
  induction copies generalizing m0 with
  | nil => rfl
  | cons hd tl ih =>
    obtain ⟨id, cid⟩ := hd
    simp only [applyCopies]
    rw [ih _ (fun p hp => h p (List.mem_cons_of_mem _ hp))]
    have hne : ¬ c = id := fun he =>
      (h (id, cid) (List.mem_cons_self _ _)) (by simp [he.symm])
    simp [hne]

/-- The inheritance pass appends: for `(b, a)` in the copy map, with
unique keys and with `a` not itself a key, `b`'s final rule list is its
own declared rules followed by `a`'s declared rules (lines 277-281 of
`load_tilesets_with_rules`). -/
theorem applyCopies_copy_append (copies : List (Char × Char))
    (m0 : Char → List SetRule) (b a : Char)
    (hmem : (b, a) ∈ copies) (hnodup : (copies.map Prod.fst).Nodup)
    (hakey : ∀ p ∈ copies, p.1 ≠ a) :
    applyCopies m0 copies b = m0 b ++ m0 a := by
  induction copies generalizing m0 with
  | nil => cases hmem
  | cons hd tl ih =>
    obtain ⟨id, cid⟩ := hd
    have hnodup2 : (id :: tl.map Prod.fst).Nodup := by simpa using hnodup
    have hidtl : id ∉ tl.map Prod.fst := (List.nodup_cons.mp hnodup2).1
    rcases List.mem_cons.mp hmem with heq | hmem2
    · have hb : b = id := congrArg Prod.fst heq
      have ha : a = cid := congrArg Prod.snd heq
      subst hb; subst ha
      simp only [applyCopies]
      have hbtl : ∀ p ∈ tl, p.1 ≠ b := by
        intro p hp he
        exact hidtl (he ▸ List.mem_map_of_mem Prod.fst hp)
      rw [applyCopies_of_notkey tl _ b hbtl]
      simp
    · simp only [applyCopies]
      have hbid : ¬ b = id := by
        intro he
        exact hidtl (he ▸ List.mem_map_of_mem Prod.fst hmem2)
      have haid : ¬ a = id := fun he =>
        (hakey (id, cid) (List.mem_cons_self _ _)) he.symm
      rw [ih _ hmem2 (List.nodup_cons.mp hnodup2).2
        (fun p hp => hakey p (List.mem_cons_of_mem _ hp))]
      simp [hbid, haid]

/-- `autotile_tile_coord` depends on the tileset map only through the
looked-up tileset's `rules` and `ignores`. -/
theorem autotile_congr (id1 id2 : Char) (ts1 ts2 : Tileset)
    (map1 map2 : List (Char × Tileset)) (solids : List (List Char))
    (x y : Nat) (is_solid : Char → Bool)
    (h1 : List.lookup id1 map1 = some ts1)
    (h2 : List.lookup id2 map2 = some ts2)
    (hr : ts1.rules = ts2.rules) (hi : ts1.ignores = ts2.ignores) :
    autotile_tile_coord id1 solids x y map1 is_solid =
      autotile_tile_coord id2 solids x y map2 is_solid := by
  simp only [autotile_tile_coord, h1, h2, hr, hi]

/-- C9 (amended): a tile-type `b` declaring `copy="a"` gets a final rule
list equal to its own declared rules followed by `a`'s rules (for `a`
not itself copying, with the copy map's keys unique); consequently a `b`
with zero own rules and the SAME `ignores` attribute as `a` (the
amendment: `ignores` is not inherited through `copy`) resolves via
`autotile_tile_coord` to the same tile coordinate as `a` for every grid
and every position. -/
theorem copy_resolves_like_base (m0 : Char → List SetRule)
    (copies : List (Char × Char)) (b a : Char) (pa pb : String)
    (ign : Option String)
    (hmem : (b, a) ∈ copies) (hnodup : (copies.map Prod.fst).Nodup)
    (hakey : ∀ p ∈ copies, p.1 ≠ a) (hown : m0 b = []) :
    applyCopies m0 copies b = m0 b ++ m0 a ∧
    ∀ (solids : List (List Char)) (x y : Nat) (is_solid : Char → Bool),
      autotile_tile_coord b solids x y
        [(a, ⟨a, pa, ign, applyCopies m0 copies a⟩),
         (b, ⟨b, pb, ign, applyCopies m0 copies b⟩)] is_solid =
      autotile_tile_coord a solids x y
        [(a, ⟨a, pa, ign, applyCopies m0 copies a⟩),
         (b, ⟨b, pb, ign, applyCopies m0 copies b⟩)] is_solid := by
  have hba : b ≠ a := fun he => (hakey (b, a) hmem) (by simpa using he)
  have happ := applyCopies_copy_append copies m0 b a hmem hnodup hakey
  have hnk := applyCopies_of_notkey copies m0 a hakey
  refine ⟨happ, ?_⟩
  intro solids x y is_solid
  have hbeq : (b == a) = false := beq_eq_false_iff_ne.mpr hba
  apply autotile_congr b a
    ⟨b, pb, ign, applyCopies m0 copies b⟩
    ⟨a, pa, ign, applyCopies m0 copies a⟩
  · simp [List.lookup, hbeq]
  · simp [List.lookup]
  · simp [happ, hown, hnk]
  · rfl

/-- C9 counterexample: `ignores` is NOT inherited through `copy`.  With
base tile-type `a` declaring `ignores="i"` and one rule
`mask="0xx-xxx-xxx" tiles="3,3"`, a tile-type `b` with `copy="a"` and no
own rules gets the same rule list (first conjunct) but not the
`ignores`, so on a grid whose top-left neighbor is the solid-but-ignored
character `'i'`, `a` resolves to `(3,3)` while `b` falls through to the
`(0,0)` default. -/
theorem copy_ignores_counterexample :
    applyCopies
        (fun i => if i = 'a' then [⟨"0xx-xxx-xxx", [(3, 3)]⟩] else [])
        [('b', 'a')] 'b' = [⟨"0xx-xxx-xxx", [(3, 3)]⟩] ∧
    autotile_tile_coord 'a' [['i', '1', '1'], ['1', '1', '1'],
        ['1', '1', '1']] 1 1
      [('a', ⟨'a', "pathA", some "i", [⟨"0xx-xxx-xxx", [(3, 3)]⟩]⟩),
       ('b', ⟨'b', "pathA", none, [⟨"0xx-xxx-xxx", [(3, 3)]⟩]⟩)]
      (fun ch => ch == '1' || ch == 'i') = some (3, 3) ∧
    autotile_tile_coord 'b' [['i', '1', '1'], ['1', '1', '1'],
        ['1', '1', '1']] 1 1
      [('a', ⟨'a', "pathA", some "i", [⟨"0xx-xxx-xxx", [(3, 3)]⟩]⟩),
       ('b', ⟨'b', "pathA", none, [⟨"0xx-xxx-xxx", [(3, 3)]⟩]⟩)]
      (fun ch => ch == '1' || ch == 'i') = some (0, 0) ∧
    ((3, 3) : Nat × Nat) ≠ (0, 0) := by
  exact ⟨by decide, by decide, by decide, by decide⟩

/-- Witness for C9 (amended): with `m0` giving `a` one rule and `b`
none, and the copy list `[('b','a')]`, `b` inherits exactly `a`'s rule
and resolves like `a` on a concrete grid. -/
theorem copy_resolves_like_base_witness :
    applyCopies
        (fun i => if i = 'a' then [⟨"0xx-xxx-xxx", [(3, 3)]⟩] else [])
        [('b', 'a')] 'b' =
      (fun i => if i = 'a' then [⟨"0xx-xxx-xxx", [(3, 3)]⟩] else []) 'b' ++
      (fun i => if i = 'a' then [⟨"0xx-xxx-xxx", [(3, 3)]⟩] else []) 'a' ∧
    autotile_tile_coord 'b' [['1']] 0 0
        [('a', ⟨'a', "pa", none, applyCopies
          (fun i => if i = 'a' then [⟨"0xx-xxx-xxx", [(3, 3)]⟩] else [])
          [('b', 'a')] 'a'⟩),
         ('b', ⟨'b', "pb", none, applyCopies
          (fun i => if i = 'a' then [⟨"0xx-xxx-xxx", [(3, 3)]⟩] else [])
          [('b', 'a')] 'b'⟩)] (fun ch => ch == '1') =
      autotile_tile_coord 'a' [['1']] 0 0
        [('a', ⟨'a', "pa", none, applyCopies
          (fun i => if i = 'a' then [⟨"0xx-xxx-xxx", [(3, 3)]⟩] else [])
          [('b', 'a')] 'a'⟩),
         ('b', ⟨'b', "pb", none, applyCopies
          (fun i => if i = 'a' then [⟨"0xx-xxx-xxx", [(3, 3)]⟩] else [])
          [('b', 'a')] 'b'⟩)] (fun ch => ch == '1') :=
  ⟨(copy_resolves_like_base
      (fun i => if i = 'a' then [⟨"0xx-xxx-xxx", [(3, 3)]⟩] else [])
      [('b', 'a')] 'b' 'a' "pa" "pb" none (by decide) (by decide)
      (by decide) (by decide)).1,
   (copy_resolves_like_base
      (fun i => if i = 'a' then [⟨"0xx-xxx-xxx", [(3, 3)]⟩] else [])
      [('b', 'a')] 'b' 'a' "pa" "pb" none (by decide) (by decide)
      (by decide) (by decide)).2 [['1']] 0 0 (fun ch => ch == '1')⟩

end Summit
